import Mathlib

/-!
Verification of the federated query engine (validator, sanitizer, result
aggregator, federated executor, schema cache, heuristic optimizer).

Queries are modelled as lists of characters; Python string helpers
(`upper`, `strip`, `split`, substring membership, `re.search` with word
boundaries) are embedded as executable Lean functions below.
-/

namespace NLDB

/-- Strings of the modelled program, as explicit character lists. -/
abbrev Str := List Char

/-- Literal conversion helper. -/
def str (s : String) : Str := s.toList

/-- A single-quote character (written by code to avoid a literal apostrophe). -/
def sq : Str := [Char.ofNat 39]

/-- Decimal rendering of a natural number, as Python str(int). -/
def natStr (n : Nat) : Str := Nat.toDigits 10 n

/-- ASCII upper-casing of one character, as Python str.upper on ASCII text. -/
def asciiUpper (c : Char) : Char :=
  if 97 ≤ c.toNat ∧ c.toNat ≤ 122 then Char.ofNat (c.toNat - 32) else c

/-- ASCII lower-casing of one character, as Python str.lower on ASCII text. -/
def asciiLower (c : Char) : Char :=
  if 65 ≤ c.toNat ∧ c.toNat ≤ 90 then Char.ofNat (c.toNat + 32) else c

/-- Python str.upper over the whole string. -/
def upper (s : Str) : Str := s.map asciiUpper

/-- Python str.lower over the whole string. -/
def lower (s : Str) : Str := s.map asciiLower

/-- Word characters of the regex classes used by the source: [A-Za-z0-9_]. -/
def isWordChar (c : Char) : Bool :=
  (65 ≤ c.toNat && c.toNat ≤ 90) || (97 ≤ c.toNat && c.toNat ≤ 122) ||
  (48 ≤ c.toNat && c.toNat ≤ 57) || c == '_'

/-- Whitespace recognized by Python str.strip and the regex class backslash-s. -/
def isPySpace (c : Char) : Bool :=
  c == ' ' || c == '\t' || c == '\n' || c == '\r' ||
  c == Char.ofNat 11 || c == Char.ofNat 12

/-- Python substring membership (the `in` operator on str). -/
def containsSub (pat : Str) : Str → Bool
  | [] => pat.isEmpty
  | c :: rest => pat.isPrefixOf (c :: rest) || containsSub pat rest

/-- Number of positions at which `pat` occurs in `s` (counting overlaps). -/
def countOccur (pat : Str) : Str → Nat
  | [] => if pat.isEmpty then 1 else 0
  | c :: rest =>
      (if pat.isPrefixOf (c :: rest) then 1 else 0) + countOccur pat rest

/-- No word character right before the candidate match. -/
def wordBoundaryBefore : Option Char → Bool
  | none => true
  | some c => !isWordChar c

/-- No word character right after the candidate match. -/
def wordBoundaryAfter : Str → Bool
  | [] => true
  | c :: _ => !isWordChar c

/-- Scanner for `wordSearch`, carrying the previous character. -/
def wordSearchAux (pat : Str) : Option Char → Str → Bool
  | _, [] => false
  | prev, c :: rest =>
      (wordBoundaryBefore prev && pat.isPrefixOf (c :: rest) &&
        wordBoundaryAfter ((c :: rest).drop pat.length))
      || wordSearchAux pat (some c) rest

/-- Models re.search of a word-bounded all-word-character pattern:
backslash-b PAT backslash-b. -/
def wordSearch (pat : Str) (s : Str) : Bool := wordSearchAux pat none s

/-- Python str.lstrip. -/
def lstrip (s : Str) : Str := s.dropWhile isPySpace

/-- Python str.rstrip. -/
def rstrip (s : Str) : Str := (s.reverse.dropWhile isPySpace).reverse

/-- Python str.strip. -/
def pyStrip (s : Str) : Str := rstrip (lstrip s)

/-- Python str.split on a single separator character. -/
def splitOnChar (sep : Char) : Str → List Str
  | [] => [[]]
  | c :: rest =>
      match splitOnChar sep rest with
      | [] => [[]]
      | t :: ts => if c == sep then [] :: t :: ts else (c :: t) :: ts

/-- The security configuration consumed by validation
(settings.security in app/config/settings.py). -/
structure Security where
  maxQuerySize : Nat
  enableWriteOperations : Bool
deriving DecidableEq, Repr

/-- Dangerous ClickHouse constructs with their reason texts
(query_utils.validate_clickhouse_query lines 59-69). -/
def chDangerousOps : List (Str × Str) :=
  [(str "DROP", str "DROP operation"),
   (str "TRUNCATE", str "TRUNCATE operation"),
   (str "ALTER", str "ALTER operation"),
   (str "GRANT", str "GRANT operation"),
   (str "REVOKE", str "REVOKE operation"),
   (str "SYSTEM", str "SYSTEM command"),
   (str "SHUTDOWN", str "SHUTDOWN operation"),
   (str "KILL", str "KILL operation"),
   (str "OUTFILE", str "OUTFILE operation")]

/-- Word-bounded write-operation patterns
(query_utils.validate_clickhouse_query line 78). -/
def chWriteOpsWord : List Str :=
  [str "INSERT", str "UPDATE", str "DELETE", str "CREATE"]

/-- Embeds query_utils.validate_clickhouse_query: size bound, word-bounded
dangerous-operation search, word-bounded write gating, the multi-statement
check (skipped when the stripped query ends with a semicolon), and the
comment-syntax check. -/
def validateClickhouseQuery (sec : Security) (query : Str) : Bool × Str :=
  if sec.maxQuerySize < query.length then
    (false, str "Query exceeds maximum size of " ++ natStr sec.maxQuerySize ++
      str " characters")
  else
    let qU := upper query
    match chDangerousOps.find? (fun p => wordSearch p.1 qU) with
    | some p => (false, str "Query contains dangerous operation: " ++ p.2)
    | none =>
      if !sec.enableWriteOperations && chWriteOpsWord.any (fun p => wordSearch p qU) then
        (false, str "Write operations are disabled")
      else if containsSub (str ";") query
          && !((str ";").isSuffixOf (pyStrip query))
          && decide (1 < (((splitOnChar ';' query).map pyStrip).filter
                (fun s => !s.isEmpty)).length) then
        (false, str "Multi-statement queries are not allowed")
      else if containsSub (str "--") query || containsSub (str "/*") query then
        (false, str "Query contains comment syntax that may be used for SQL injection")
      else (true, [])

/-- Characters kept by the name sanitizers: [a-zA-Z0-9_]. -/
def stripNonWord (s : Str) : Str := s.filter isWordChar

/-- Embeds query_utils.sanitize_clickhouse_table_name. -/
def sanitizeClickhouseTableName (t : Str) : Str :=
  let sanitized := stripNonWord t
  if (str "system").isPrefixOf (lower sanitized)
      || (str "_system").isPrefixOf (lower sanitized) then
    str "user_" ++ sanitized
  else sanitized

/-- Embeds query_utils.sanitize_mongodb_collection_name. The prefix test is
performed on the already-stripped name, exactly as in the source. -/
def sanitizeMongodbCollectionName (c : Str) : Str :=
  let sanitized := stripNonWord c
  if (str "system.").isPrefixOf (lower sanitized)
      || (str "admin.").isPrefixOf (lower sanitized) then
    str "user_" ++ sanitized
  else sanitized

/-- Number of non-empty semicolon-separated statements of a query, the
quantity the multi-statement rule of the spec speaks about. -/
def nonEmptyStatements (q : Str) : Nat :=
  (((splitOnChar ';' q).map pyStrip).filter (fun s => !s.isEmpty)).length

/-- Characters of the table-name capture group [a-zA-Z0-9_.] in the
FROM / JOIN / INTO patterns of QueryValidator. -/
def isTableChar (c : Char) : Bool := isWordChar c || c == '.'

/-- Case-insensitive literal match of a keyword at the front of a string
(the patterns are compiled with re.IGNORECASE). -/
def ciPrefix : Str → Str → Bool
  | [], _ => true
  | _ :: _, [] => false
  | k :: ks, c :: cs => asciiLower k == asciiLower c && ciPrefix ks cs

/-- Attempt to match KEYWORD backslash-s+ ([a-zA-Z0-9_.]+) at the front of
`s`: returns (group start offset, group length, group text) on success. -/
def tryMatch (kw : Str) (s : Str) : Option (Nat × Nat × Str) :=
  if ciPrefix kw s then
    let rest := s.drop kw.length
    let spaces := rest.takeWhile isPySpace
    if spaces.isEmpty then none
    else
      let rest2 := rest.drop spaces.length
      let grp := rest2.takeWhile isTableChar
      if grp.isEmpty then none
      else some (kw.length + spaces.length, grp.length, grp)
  else none

/-- Scanner for `findMatches`: fuel-driven left-to-right scan producing
non-overlapping matches, as re.finditer. -/
def findMatchesGo (kw : Str) : Nat → Str → Nat → List (Nat × Nat × Str)
  | 0, _, _ => []
  | _ + 1, [], _ => []
  | fuel + 1, c :: rest, p =>
      match tryMatch kw (c :: rest) with
      | some (gs, gl, grp) =>
          (p + gs, p + gs + gl, grp) ::
            findMatchesGo kw fuel ((c :: rest).drop (gs + gl)) (p + gs + gl)
      | none => findMatchesGo kw fuel rest (p + 1)

/-- All matches of the pattern KEYWORD backslash-s+ ([a-zA-Z0-9_.]+) in `s`,
with the start and end index of the capture group (re.finditer order). -/
def findMatches (kw : Str) (s : Str) : List (Nat × Nat × Str) :=
  findMatchesGo kw s.length s 0

/-- Splice `repl` over the index range [start, stop) of `s`,
as Python slicing s[:start] + repl + s[stop:]. -/
def applySpanRepl (s : Str) (start stop : Nat) (repl : Str) : Str :=
  s.take start ++ repl ++ s.drop stop

/-- One pattern pass of the table-name rewrite: match positions are computed
on the original query while replacements are spliced into the accumulated
string, exactly as QueryValidator._validate_clickhouse_query does. -/
def chRewriteWith (kw : Str) (orig : Str) (cur : Str) : Str :=
  (findMatches kw orig).foldl
    (fun acc m =>
      match m with
      | (st, en, tbl) =>
          let san := sanitizeClickhouseTableName tbl
          if tbl == san then acc else applySpanRepl acc st en san)
    cur

/-- Table-name canonicalization over the three patterns FROM, JOIN, INTO
(QueryValidator._validate_clickhouse_query lines 197-217). -/
def chSanitizeText (orig : Str) : Str :=
  [str "FROM", str "JOIN", str "INTO"].foldl (fun cur kw => chRewriteWith kw orig cur) orig

/-- The executable ClickHouse query body: the dict with keys query, params,
settings. Params and settings are carried through unchanged by validation,
modelled as opaque association lists. -/
structure CHBody where
  query : Str
  params : List (Str × Str) := []
  settings : List (Str × Str) := []
deriving DecidableEq, Repr

/-- The empty dict returned with a failed validation. -/
def emptyCH : CHBody := { query := [] }

/-- Plain-substring write operations checked by
QueryValidator._validate_clickhouse_query line 190. -/
def chWriteOpsSub : List Str :=
  [str "INSERT", str "UPDATE", str "DELETE", str "CREATE", str "ALTER", str "DROP"]

/-- Embeds QueryValidator._validate_clickhouse_query given a body whose
query key is present: query_utils validation, then the plain-substring
write-operation check when writes are disabled, then table-name
sanitization of the accepted query. -/
def chValidate (sec : Security) (body : CHBody) : Bool × Str × CHBody :=
  let v := validateClickhouseQuery sec body.query
  if v.1 then
    let qU := upper body.query
    match (if sec.enableWriteOperations then none
           else chWriteOpsSub.find? (fun op => containsSub op qU)) with
    | some op => (false, str "Write operation (" ++ op ++ str ") is not allowed", emptyCH)
    | none => (true, [], { body with query := chSanitizeText body.query })
  else (false, v.2, emptyCH)

/-- A tabular row: field name to value (values abstracted to integers; the
aggregator moves rows around without inspecting values itself). -/
abbrev Row := List (Str × Int)

/-- The uniform result dict shape: success flag, data rows, count, error.
Timing keys (execution_time, aggregation_time) are wall-clock values and
are not part of the modelled state. -/
structure QRes where
  success : Bool := false
  data : List Row := []
  error : Option Str := none
  count : Nat := 0
deriving DecidableEq, Repr

/-- A successful aggregation result built from rows
(success, data, count pattern of result_aggregator.py). -/
def mkOk (rows : List Row) : QRes :=
  { success := true, data := rows, count := rows.length }

/-- A failed result with an error reason. -/
def mkErr (msg : Str) : QRes := { success := false, error := some msg }

/-- One entry of the transformations list of the transform operation
(result_aggregator._transform_results lines 248-281). The unknown
constructor covers a transform dict with an unrecognized type, which the
source silently skips. -/
inductive Transform where
  | selectColumns (columns : List Str)
  | renameColumns (renameMap : List (Str × Str))
  | addColumn (columnName : Str) (expression : Str)
  | dropColumns (columns : List Str)
  | fillNa (value : Option Int) (columns : Option (List Str))
  | unknown
deriving DecidableEq, Repr

/-- The parameters dict of an aggregation operation; absent keys are none. -/
structure Params where
  leftOn : Option Str := none
  rightOn : Option Str := none
  how : Option Str := none
  suffixes : Option (Str × Str) := none
  ignoreIndex : Option Bool := none
  transformations : Option (List Transform) := none
  condition : Option Str := none
  sortBy : Option Str := none
  ascending : Option Bool := none
deriving DecidableEq, Repr

/-- Python falsiness of an optional string parameter (absent or empty). -/
def isFalsyS : Option Str → Bool
  | none => true
  | some s => s.isEmpty

/-- The pandas operations the aggregator delegates row-level work to.
pandas is an external library, so its behaviour is a parameter of the
embedding; an .error result models an exception raised by the call. -/
structure PandasOps where
  toDF : List Row → Option (List Row)
  merge : List Row → List Row → Str → Str → Str → (Str × Str) → Except Str (List Row)
  concat : List (List Row) → Bool → Except Str (List Row)
  selectColumns : List Row → List Str → Except Str (List Row)
  renameColumns : List Row → List (Str × Str) → Except Str (List Row)
  evalColumn : List Row → Str → Str → Except Str (List Row)
  dropColumns : List Row → List Str → Except Str (List Row)
  fillNa : List Row → Option Int → Option (List Str) → Except Str (List Row)
  query : List Row → Str → Except Str (List Row)
  sortValues : List Row → Str → Bool → Except Str (List Row)

/-- Embeds ResultAggregator._join_results: needs two dataframes, takes the
first two, defaults right_on to left_on, how to inner, suffixes to
(_x, _y), and rejects falsy join columns. -/
def joinResults (ops : PandasOps) (dfs : List (List Row)) (p : Params) : QRes :=
  if dfs.length < 2 then mkErr (str "Need at least two dataframes for a join")
  else
    match dfs with
    | df1 :: df2 :: _ =>
        let leftOn := p.leftOn
        let rightOn := match p.rightOn with | none => p.leftOn | some r => some r
        let how := p.how.getD (str "inner")
        let suffixes := p.suffixes.getD (str "_x", str "_y")
        if isFalsyS leftOn || isFalsyS rightOn then
          mkErr (str "Join columns not specified")
        else
          match ops.merge df1 df2 (leftOn.getD []) (rightOn.getD []) how suffixes with
          | .ok rows => mkOk rows
          | .error e => mkErr (str "Error joining results: " ++ e)
    | _ => mkErr (str "Need at least two dataframes for a join")

/-- Embeds ResultAggregator._union_results. -/
def unionResults (ops : PandasOps) (dfs : List (List Row)) (p : Params) : QRes :=
  match ops.concat dfs (p.ignoreIndex.getD true) with
  | .ok rows => mkOk rows
  | .error e => mkErr (str "Error unioning results: " ++ e)

/-- One step of the transformation loop, with the empty-argument guards of
the source (an empty columns list or name leaves the frame unchanged). -/
def applyOneTransform (ops : PandasOps) (df : List Row) : Transform → Except Str (List Row)
  | .selectColumns cols => if cols.isEmpty then .ok df else ops.selectColumns df cols
  | .renameColumns m => if m.isEmpty then .ok df else ops.renameColumns df m
  | .addColumn name expr =>
      if name.isEmpty || expr.isEmpty then .ok df else ops.evalColumn df name expr
  | .dropColumns cols => if cols.isEmpty then .ok df else ops.dropColumns df cols
  | .fillNa v cols => ops.fillNa df v cols
  | .unknown => .ok df

/-- Embeds ResultAggregator._transform_results: first dataframe only, the
transformations applied in list order, first exception aborts. -/
def transformResults (ops : PandasOps) (dfs : List (List Row)) (p : Params) : QRes :=
  match dfs with
  | [] => mkErr (str "No dataframes to transform")
  | df :: _ =>
      let ts := p.transformations.getD []
      if ts.isEmpty then mkErr (str "No transformations specified")
      else
        match ts.foldlM (applyOneTransform ops) df with
        | .ok rows => mkOk rows
        | .error e => mkErr (str "Error transforming results: " ++ e)

/-- Embeds ResultAggregator._filter_results. -/
def filterResults (ops : PandasOps) (dfs : List (List Row)) (p : Params) : QRes :=
  match dfs with
  | [] => mkErr (str "No dataframes to filter")
  | df :: _ =>
      let condition := p.condition.getD []
      if condition.isEmpty then mkErr (str "No filter condition specified")
      else
        match ops.query df condition with
        | .ok rows => mkOk rows
        | .error e => mkErr (str "Error filtering results: " ++ e)

/-- Embeds ResultAggregator._sort_results. -/
def sortResults (ops : PandasOps) (dfs : List (List Row)) (p : Params) : QRes :=
  match dfs with
  | [] => mkErr (str "No dataframes to sort")
  | df :: _ =>
      if isFalsyS p.sortBy then mkErr (str "No sort columns specified")
      else
        match ops.sortValues df (p.sortBy.getD []) (p.ascending.getD true) with
        | .ok rows => mkOk rows
        | .error e => mkErr (str "Error sorting results: " ++ e)

/-- The usable-input conversion of ResultAggregator.aggregate lines 38-52:
keep inputs with success and non-empty data; a DataFrame conversion
exception is logged and the input skipped. -/
def dataframesOf (ops : PandasOps) (results : List QRes) : List (List Row) :=
  results.filterMap (fun r =>
    if r.success && !r.data.isEmpty then ops.toDF r.data else none)

/-- Embeds ResultAggregator.aggregate. The limit and group branches call
ResultAggregator._limit_results and ResultAggregator._group_results, which
do not exist anywhere in the class: at run time Python raises
AttributeError, which the surrounding try/except turns into a failed
result whose error text is the exception message. -/
def aggregate (ops : PandasOps) (results : List QRes) (operation : Str)
    (p : Params) : QRes :=
  let dfs := dataframesOf ops results
  if dfs.isEmpty then mkErr (str "No valid data to aggregate")
  else if operation == str "join" then joinResults ops dfs p
  else if operation == str "union" then unionResults ops dfs p
  else if operation == str "transform" then transformResults ops dfs p
  else if operation == str "filter" then filterResults ops dfs p
  else if operation == str "sort" then sortResults ops dfs p
  else if operation == str "limit" then
    mkErr (str "Error aggregating results: type object " ++ sq ++
      str "ResultAggregator" ++ sq ++ str " has no attribute " ++ sq ++
      str "_limit_results" ++ sq)
  else if operation == str "group" then
    mkErr (str "Error aggregating results: type object " ++ sq ++
      str "ResultAggregator" ++ sq ++ str " has no attribute " ++ sq ++
      str "_group_results" ++ sq)
  else mkErr (str "Unsupported aggregation operation: " ++ operation)

/-- The executable MongoDB query dict; optional keys are none when absent.
Filter / document / option payloads are opaque to the executor and
modelled as rows. -/
structure MongoQuery where
  collection : Str
  operation : Str
  filter : Option Row := none
  document : Option Row := none
  documents : Option (List Row) := none
  update : Option Row := none
  pipeline : Option (List Row) := none
  options : Option Row := none
deriving DecidableEq, Repr

/-- The query argument MongoDBExecutor._execute_query hands to
mongodb_client.execute_query. -/
inductive MongoClientArg where
  | doc (d : Row)
  | docs (ds : List Row)
  | filterUpdate (f u : Row)
deriving DecidableEq, Repr

/-- A fully described client call issued by MongoDBExecutor._execute_query:
collection, operation, query payload, and the options argument when the
branch passes one. -/
structure MongoCall where
  collection : Str
  operation : Str
  arg : MongoClientArg
  options : Option Row := none
deriving DecidableEq, Repr

/-- Embeds the dispatch stage MongoDBExecutor._execute_query (lines 73-196),
which runs after validation: it returns the client call issued for the
operation, or for an unknown operation the failed result returned instead.
It consults no security settings. -/
def mongoExecuteQueryCall (q : MongoQuery) : Except QRes MongoCall :=
  if q.operation == str "find" then
    .ok { collection := q.collection, operation := str "find",
          arg := .doc (q.filter.getD []), options := some (q.options.getD []) }
  else if q.operation == str "aggregate" then
    .ok { collection := q.collection, operation := str "aggregate",
          arg := .docs (q.pipeline.getD []), options := some (q.options.getD []) }
  else if q.operation == str "count" then
    .ok { collection := q.collection, operation := str "count",
          arg := .doc (q.filter.getD []) }
  else if q.operation == str "insert_one" then
    .ok { collection := q.collection, operation := str "insert_one",
          arg := .doc (q.document.getD []) }
  else if q.operation == str "insert_many" then
    .ok { collection := q.collection, operation := str "insert_many",
          arg := .docs (q.documents.getD []) }
  else if q.operation == str "update_one" then
    .ok { collection := q.collection, operation := str "update_one",
          arg := .filterUpdate (q.filter.getD []) (q.update.getD []),
          options := some (q.options.getD []) }
  else if q.operation == str "update_many" then
    .ok { collection := q.collection, operation := str "update_many",
          arg := .filterUpdate (q.filter.getD []) (q.update.getD []),
          options := some (q.options.getD []) }
  else if q.operation == str "delete_one" then
    .ok { collection := q.collection, operation := str "delete_one",
          arg := .doc (q.filter.getD []) }
  else if q.operation == str "delete_many" then
    .ok { collection := q.collection, operation := str "delete_many",
          arg := .doc (q.filter.getD []) }
  else .error (mkErr (str "Unsupported operation: " ++ q.operation))

/-- Embeds ClickHouseExecutor.execute, instrumented with the list of client
calls it makes: validate, connect, then hand the sanitized body to the
client (an oracle for clickhouse_client.execute_query). There is no step
between validation and dispatch. -/
def chExecuteCalls (sec : Security) (connectOk : Bool) (client : CHBody → QRes)
    (body : CHBody) : QRes × List CHBody :=
  let v := chValidate sec body
  if v.1 then
    if connectOk then (client v.2.2, [v.2.2])
    else (mkErr (str "Failed to connect to ClickHouse"), [])
  else (mkErr v.2.1, [])

/-- One step of a federated plan (the step dicts of
Executor._execute_federated_query); required keys are structure fields,
optional keys are none when absent. -/
structure Step where
  stepIndex : Nat
  stepType : Str
  dataSource : Str
  outputVar : Str
  mongodbQuery : Option MongoQuery := none
  clickhouseQuery : Option CHBody := none
  operation : Option Str := none
  inputs : Option (List Str) := none
  parameters : Params := {}
deriving DecidableEq, Repr

/-- The collaborators of the federated path: security settings, the MongoDB
body validator (QueryValidator._validate_mongodb_query, whose internals no
claim touches), the two single-source executors, and pandas. -/
structure FedEnv where
  sec : Security
  mongoValidate : MongoQuery → Bool × Str × MongoQuery
  mongoExec : MongoQuery → QRes
  chExec : CHBody → QRes
  pandas : PandasOps

/-- The per-step loop of QueryValidator._validate_federated_query:
first invalid step aborts with its enumerate index in the reason,
otherwise the sanitized steps are collected in order. -/
def validateStepsGo (env : FedEnv) : Nat → List Step → Except Str (List Step)
  | _, [] => .ok []
  | i, s :: rest =>
      if s.dataSource == str "mongodb" then
        match s.mongodbQuery with
        | none => .error (str "Step " ++ natStr i ++ str ": MongoDB query not specified")
        | some q =>
            let v := env.mongoValidate q
            if v.1 then
              (validateStepsGo env (i + 1) rest).map
                (fun ss => { s with mongodbQuery := some v.2.2 } :: ss)
            else .error (str "Step " ++ natStr i ++ str ": " ++ v.2.1)
      else if s.dataSource == str "clickhouse" then
        match s.clickhouseQuery with
        | none => .error (str "Step " ++ natStr i ++ str ": ClickHouse query not specified")
        | some q =>
            let v := chValidate env.sec q
            if v.1 then
              (validateStepsGo env (i + 1) rest).map
                (fun ss => { s with clickhouseQuery := some v.2.2 } :: ss)
            else .error (str "Step " ++ natStr i ++ str ": " ++ v.2.1)
      else if s.dataSource == str "memory" then
        if s.operation.isNone then
          .error (str "Step " ++ natStr i ++ str ": Operation not specified")
        else if s.inputs.isNone then
          .error (str "Step " ++ natStr i ++ str ": Inputs not specified")
        else (validateStepsGo env (i + 1) rest).map (fun ss => s :: ss)
      else
        .error (str "Step " ++ natStr i ++ str ": Unsupported data source: " ++ s.dataSource)

/-- Embeds QueryValidator._validate_federated_query: per-step validation,
then the final-step presence check over the original steps list. -/
def validateFederated (env : FedEnv) (steps : List Step) : Bool × Str × List Step :=
  if steps.isEmpty then (false, str "No steps specified", [])
  else
    match validateStepsGo env 0 steps with
    | .error e => (false, e, [])
    | .ok ss =>
        if steps.any (fun s => s.stepType == str "final") then (true, [], ss)
        else (false, str "No final step specified", [])

/-- Trace events of the federated loop: one started event per processed
step (by position in the sanitized sequence) and one backend event per
dispatch to a single-source executor. -/
inductive FEvent where
  | started (pos : Nat)
  | backend (pos : Nat) (source : Str)
deriving DecidableEq, Repr

/-- The position a trace event belongs to. -/
def FEvent.pos : FEvent → Nat
  | .started p => p
  | .backend p _ => p

/-- Insert-or-overwrite on an association list, as assignment into a Python
dict (existing key updated in place, new key appended). -/
def upsertA {β : Type} (m : List (Str × β)) (k : Str) (v : β) : List (Str × β) :=
  match m with
  | [] => [(k, v)]
  | (k0, v0) :: rest => if k0 == k then (k0, v) :: rest else (k0, v0) :: upsertA rest k v

/-- Resolve the named inputs of a memory step against the outputs produced
so far; the first missing name aborts (executor.py lines 236-244). -/
def resolveInputs (outputs : List (Str × QRes)) : List Str → Except Str (List QRes)
  | [] => .ok []
  | n :: ns =>
      match outputs.lookup n with
      | none => .error n
      | some r => (resolveInputs outputs ns).map (fun rs => r :: rs)

/-- format_query_result on a successful result only attaches presentation
keys (formatted_data and truncation counters); the success, data, error
and count keys are unchanged, so on the modelled state it is the
identity. -/
def formatQueryResult (r : QRes) : QRes := r

/-- The tail of a federated loop iteration (executor.py lines 260-278):
a failed step result halts the pipeline with the step index in the error,
a successful final step halts with its formatted result, any other
success stores the output and continues. -/
def afterResult (s : Step) : QRes → Except QRes (Str × QRes) :=
  fun r =>
    if !r.success then
      .error (mkErr (str "Step " ++ natStr s.stepIndex ++ str " failed: " ++
        r.error.getD (str "Unknown error")))
    else if s.stepType == str "final" then .error (formatQueryResult r)
    else .ok (s.outputVar, r)

/-- One iteration body of the federated loop: the boolean records whether a
single-source executor was dispatched to (backend contact); .error halts
the loop with that result, .ok continues with a stored output. -/
def fedStepCore (env : FedEnv) (outputs : List (Str × QRes)) (s : Step) :
    Bool × Except QRes (Str × QRes) :=
  if s.dataSource == str "mongodb" then
    match s.mongodbQuery with
    | none => (false, .error (mkErr (str "Step " ++ natStr s.stepIndex ++
        str ": MongoDB query not specified")))
    | some q => (true, afterResult s (env.mongoExec q))
  else if s.dataSource == str "clickhouse" then
    match s.clickhouseQuery with
    | none => (false, .error (mkErr (str "Step " ++ natStr s.stepIndex ++
        str ": ClickHouse query not specified")))
    | some q => (true, afterResult s (env.chExec q))
  else if s.dataSource == str "memory" then
    match s.operation with
    | none => (false, .error (mkErr (str "Step " ++ natStr s.stepIndex ++
        str ": Memory operation not specified")))
    | some op =>
        match s.inputs with
        | none => (false, .error (mkErr (str "Step " ++ natStr s.stepIndex ++
            str ": Memory inputs not specified")))
        | some ins =>
            match resolveInputs outputs ins with
            | .error name => (false, .error (mkErr (str "Step " ++
                natStr s.stepIndex ++ str ": Input " ++ sq ++ name ++ sq ++
                str " not found")))
            | .ok rs => (false, afterResult s (aggregate env.pandas rs op s.parameters))
  else
    (false, .error (mkErr (str "Step " ++ natStr s.stepIndex ++
      str ": Unsupported data source: " ++ s.dataSource)))

/-- One instrumented iteration: the events it contributes at position
`pos`, and its outcome. -/
def fedStep (env : FedEnv) (outputs : List (Str × QRes)) (pos : Nat) (s : Step) :
    List FEvent × Except QRes (Str × QRes) :=
  let c := fedStepCore env outputs s
  (FEvent.started pos :: (if c.1 then [FEvent.backend pos s.dataSource] else []), c.2)

/-- The step loop of Executor._execute_federated_query over the sanitized
steps, threading the output map; falling off the end yields the
no-final-step error. -/
def fedLoop (env : FedEnv) : List (Str × QRes) → Nat → List Step → QRes × List FEvent
  | _, _, [] => (mkErr (str "No final step found in federated query"), [])
  | outputs, pos, s :: rest =>
      match fedStep env outputs pos s with
      | (evs, .error r) => (r, evs)
      | (evs, .ok (name, r)) =>
          let t := fedLoop env (upsertA outputs name r) (pos + 1) rest
          (t.1, evs ++ t.2)

/-- Embeds Executor._execute_federated_query for a plan whose steps key
holds the given list: shape check, federated validation, then the
instrumented step loop. -/
def fedExecute (env : FedEnv) (steps : List Step) : QRes × List FEvent :=
  if steps.isEmpty then (mkErr (str "Invalid federated query steps"), [])
  else
    let v := validateFederated env steps
    if v.1 then fedLoop env [] 0 v.2.2
    else (mkErr v.2.1, [])

/-- Processing of a prefix of the sanitized steps: some outputs when every
step of the prefix continued, together with the trace contributed. -/
def runPrefix (env : FedEnv) : List (Str × QRes) → Nat → List Step →
    Option (List (Str × QRes)) × List FEvent
  | outputs, _, [] => (some outputs, [])
  | outputs, pos, s :: rest =>
      match fedStep env outputs pos s with
      | (evs, .error _) => (none, evs)
      | (evs, .ok (name, r)) =>
          let t := runPrefix env (upsertA outputs name r) (pos + 1) rest
          (t.1, evs ++ t.2)

/-- A schema entry: field name to declared type text. -/
abbrev SchemaEntry := List (Str × Str)

/-- One backend schema map of the SchemaManager, name to entry, in
insertion order as a Python dict. -/
abbrev SchemaMap := List (Str × SchemaEntry)

/-- A database backend as seen by a schema refresh: whether connect
succeeds, the listed collections or tables, and the per-object schema
fetch (an empty entry is the falsy schema the source skips). -/
structure SchemaBackend where
  connect : Bool
  objects : List Str
  getSchema : Str → SchemaEntry

/-- One iteration of the refresh loop body shared by both refresh methods:
skip system objects, skip empty schemas, assign the rest into the
existing map. -/
def schemaStep (b : SchemaBackend) (acc : SchemaMap) (c : Str) : SchemaMap :=
  if (str "system.").isPrefixOf c then acc
  else
    let s := b.getSchema c
    if s.isEmpty then acc else upsertA acc c s

/-- The entry a refresh fetches for one listed object, when any. -/
def fetchedEntry (b : SchemaBackend) (c : Str) : Option (Str × SchemaEntry) :=
  let s := b.getSchema c
  if s.isEmpty then none else some (c, s)

/-- The entries a refresh actually fetches: listed objects outside the
system namespace whose fetched schema is non-empty, in listing order. -/
def fetchedEntries (b : SchemaBackend) : List (Str × SchemaEntry) :=
  (b.objects.filter (fun c => !(str "system.").isPrefixOf c)).filterMap (fetchedEntry b)

/-- The per-object loop of both refresh methods. -/
def refreshFold (b : SchemaBackend) (m : SchemaMap) : SchemaMap :=
  b.objects.foldl (schemaStep b) m

/-- Embeds SchemaManager._refresh_mongodb_schemas: a failed connect leaves
the map untouched and reports failure; otherwise every fetched entry is
assigned into self.mongodb_schemas, which is never cleared first. -/
def refreshMongodbSchemas (b : SchemaBackend) (m : SchemaMap) : SchemaMap × Bool :=
  if b.connect then (refreshFold b m, true) else (m, false)

/-- Embeds SchemaManager._refresh_clickhouse_schemas, which runs the same
loop over self.clickhouse_schemas. -/
def refreshClickhouseSchemas (b : SchemaBackend) (m : SchemaMap) : SchemaMap × Bool :=
  if b.connect then (refreshFold b m, true) else (m, false)

/-- Embeds SchemaManager.refresh_schemas over the two schema maps: both
per-backend refreshes run, and the reported success is their
disjunction. Cache-file persistence is not part of the modelled state. -/
def refreshSchemas (bm bc : SchemaBackend) (m c : SchemaMap) :
    SchemaMap × SchemaMap × Bool :=
  let rm := refreshMongodbSchemas bm m
  let rc := refreshClickhouseSchemas bc c
  (rm.1, rc.1, rm.2 || rc.2)

/-- Embeds Optimizer._optimize_clickhouse_limit on a string query: append
LIMIT 100 to a SELECT statement containing no LIMIT, case-insensitively. -/
def optimizeClickhouseLimit (query : Str) : Str :=
  if !(str "SELECT").isPrefixOf (upper (pyStrip query)) then query
  else if containsSub (str "LIMIT") (upper query) then query
  else query ++ str " LIMIT 100"

/-- Whether a step is the final step (step_type key). -/
def isFinalStep (s : Step) : Bool := s.stepType == str "final"

/-- Whether a step is a memory filter step (the steps
_optimize_step_order moves to the front). -/
def isMemFilter (s : Step) : Bool :=
  s.dataSource == str "memory" && s.operation == some (str "filter")

/-- The classification fold of Optimizer._optimize_step_order lines
428-437: filter steps, other steps, and the final step seen last. -/
def stepOrderFold (steps : List Step)
    (acc : List Step × List Step × Option Step) :
    List Step × List Step × Option Step :=
  steps.foldl
    (fun acc s =>
      if isFinalStep s then (acc.1, acc.2.1, some s)
      else if isMemFilter s then (acc.1 ++ [s], acc.2.1, acc.2.2)
      else (acc.1, acc.2.1 ++ [s], acc.2.2))
    acc

/-- Embeds Optimizer._optimize_step_order: all memory filter steps first,
then the other non-final steps, then the final step when present. -/
def optimizeStepOrder (steps : List Step) : List Step :=
  let acc := stepOrderFold steps ([], [], none)
  acc.1 ++ acc.2.1 ++ acc.2.2.toList

/-- The dependency invariant of the federated data model: each memory
step's inputs name outputs of strictly earlier steps. -/
def depInvariantGo (seen : List Str) : List Step → Bool
  | [] => true
  | s :: rest =>
      (if s.dataSource == str "memory" then
        match s.inputs with
        | some ins => ins.all (fun n => seen.contains n)
        | none => true
      else true)
      && depInvariantGo (seen ++ [s.outputVar]) rest

/-- Decidable dependency invariant over a whole plan. -/
def depInvariantB (steps : List Step) : Bool := depInvariantGo [] steps

/-- The final-step variable of the reorder loop: the last final step seen,
starting from a given value. -/
def lastFinalFrom (fin : Option Step) (steps : List Step) : Option Step :=
  steps.foldl (fun o s => if isFinalStep s then some s else o) fin

/-- The default security configuration: 10000-character bound, writes
disabled (settings.py defaults). -/
def secOff : Security := { maxQuerySize := 10000, enableWriteOperations := false }

/-- A pandas oracle whose operations all succeed and keep rows unchanged
(sufficient for claims that do not depend on row-level behaviour). -/
def opsTrivial : PandasOps :=
  { toDF := some,
    merge := fun a _ _ _ _ _ => .ok a,
    concat := fun ls _ => .ok ls.flatten,
    selectColumns := fun df _ => .ok df,
    renameColumns := fun df _ => .ok df,
    evalColumn := fun df _ _ => .ok df,
    dropColumns := fun df _ => .ok df,
    fillNa := fun df _ _ => .ok df,
    query := fun df _ => .ok df,
    sortValues := fun df _ _ => .ok df }

/-- A usable aggregation input: successful with one data row. -/
def goodInput : QRes := { success := true, data := [[(str "a", 1)]] }

/-- A successful backend result used by the concrete federated plans. -/
def chOkRes : QRes := { success := true, data := [[(str "x", 1)]] }

/-- A federated environment whose collaborators all succeed. -/
def envAllOk : FedEnv :=
  { sec := secOff,
    mongoValidate := fun q => (true, [], q),
    mongoExec := fun _ => chOkRes,
    chExec := fun _ => chOkRes,
    pandas := opsTrivial }

/-- A ClickHouse query step producing output a. -/
def c3q : Step :=
  { stepIndex := 0, stepType := str "query", dataSource := str "clickhouse",
    outputVar := str "a",
    clickhouseQuery := some { query := str "SELECT x FROM t" } }

/-- A final memory step whose single input names an output no step
produces. -/
def c3m : Step :=
  { stepIndex := 1, stepType := str "final", dataSource := str "memory",
    outputVar := str "b", operation := some (str "union"),
    inputs := some [str "missing"] }

/-- A non-final memory step with a dangling input, for the three-step
missing-input scenario. -/
def c3bad : Step :=
  { stepIndex := 1, stepType := str "transform", dataSource := str "memory",
    outputVar := str "b", operation := some (str "union"),
    inputs := some [str "nope"] }

/-- A final memory union step over output b. -/
def c3fin : Step :=
  { stepIndex := 2, stepType := str "final", dataSource := str "memory",
    outputVar := str "c", operation := some (str "union"),
    inputs := some [str "b"] }

/-- An environment whose ClickHouse executor succeeds only on SELECT 1,
used to make the middle step of a plan fail. -/
def envMidFail : FedEnv :=
  { envAllOk with
    chExec := fun b =>
      if b.query == str "SELECT 1" then chOkRes else mkErr (str "boom") }

/-- First step of the three-step abort scenario (succeeds). -/
def w1 : Step :=
  { stepIndex := 1, stepType := str "query", dataSource := str "clickhouse",
    outputVar := str "r1", clickhouseQuery := some { query := str "SELECT 1" } }

/-- Second step of the three-step abort scenario (fails at the backend). -/
def w2 : Step :=
  { stepIndex := 2, stepType := str "query", dataSource := str "clickhouse",
    outputVar := str "r2", clickhouseQuery := some { query := str "SELECT 2" } }

/-- Third, final step of the three-step abort scenario (never reached). -/
def w3 : Step :=
  { stepIndex := 3, stepType := str "final", dataSource := str "memory",
    outputVar := str "r3", operation := some (str "union"),
    inputs := some [str "r1", str "r2"] }

/-- A sanitized insert_one query, as the dispatch stage would receive it. -/
def insertQDemo : MongoQuery :=
  { collection := str "users", operation := str "insert_one",
    document := some [(str "name", 1)] }

/-- A ClickHouse query step producing output a, for the reorder scenario. -/
def o0 : Step :=
  { stepIndex := 0, stepType := str "query", dataSource := str "clickhouse",
    outputVar := str "a",
    clickhouseQuery := some { query := str "SELECT x FROM t" } }

/-- A memory filter step consuming output a. -/
def o1 : Step :=
  { stepIndex := 1, stepType := str "transform", dataSource := str "memory",
    outputVar := str "b", operation := some (str "filter"),
    inputs := some [str "a"],
    parameters := { condition := some (str "x > 0") } }

/-- The final memory step consuming output b. -/
def o2 : Step :=
  { stepIndex := 2, stepType := str "final", dataSource := str "memory",
    outputVar := str "c", operation := some (str "union"),
    inputs := some [str "b"] }

/-- A reachable backend listing one fresh collection. -/
def sbFresh : SchemaBackend :=
  { connect := true, objects := [str "fresh"],
    getSchema := fun _ => [(str "g", str "Int64")] }

/-- A schema map holding one entry from before the refresh, which the
fresh listing does not contain. -/
def mapStale : SchemaMap := [(str "old", [(str "f", str "String")])]

/-- The ClickHouse body of a read-only query naming a created_at column. -/
def bodyCA : CHBody := { query := str "SELECT created_at FROM logs" }

/-- The ClickHouse body of a write statement. -/
def bodyINS : CHBody := { query := str "INSERT INTO t VALUES (1)" }

/-- An insert_one query over an arbitrary collection and document, as the
dispatch stage receives it. -/
def insertQOf (c : Str) (d : Row) : MongoQuery :=
  { collection := c, operation := str "insert_one", document := some d }

/-- The client call an insert dispatch issues. -/
def insertCallOf (c : Str) (d : Row) : MongoCall :=
  { collection := c, operation := str "insert_one", arg := .doc d }

/-- An unreachable schema backend. -/
def sbDown : SchemaBackend :=
  { connect := false, objects := [], getSchema := fun _ => [] }

/-- A list is a prefix (in the boolean sense) of itself followed by
anything. -/
theorem isPrefixOf_append_self : ∀ (a t : Str), a.isPrefixOf (a ++ t) = true
  | [], _ => by simp [List.isPrefixOf]
  | c :: a', t => by
      simp only [List.cons_append, List.isPrefixOf, beq_self_eq_true, Bool.true_and]
      exact isPrefixOf_append_self a' t

/-- Substring membership survives prepending more text. -/
theorem containsSub_append_right (p v : Str) (h : containsSub p v = true) :
    ∀ u : Str, containsSub p (u ++ v) = true
  | [] => h
  | c :: u' => by
      simp only [List.cons_append, containsSub, Bool.or_eq_true]
      exact Or.inr (containsSub_append_right p v h u')

/-- A pattern that heads some split point of a string occurs in it. -/
theorem containsSub_of_split (p : Str) :
    ∀ (a b : Str), p.isPrefixOf b = true → containsSub p (a ++ b) = true
  | [], b, h => by
      cases b with
      | nil =>
          cases p with
          | nil => rfl
          | cons c p' => simp [List.isPrefixOf] at h
      | cons c rest =>
          simp only [List.nil_append, containsSub, Bool.or_eq_true]
          exact Or.inl h
  | x :: a', b, h => by
      simp only [List.cons_append, containsSub, Bool.or_eq_true]
      exact Or.inr (containsSub_of_split p a' b h)

/-- When no occurrence of the pattern starts inside the left part, the
occurrence count of an appended string is the count in the right part. -/
theorem countOccur_append_no_left (p v : Str) :
    ∀ (u : Str), (∀ a b, u = a ++ b → b ≠ [] → p.isPrefixOf (b ++ v) = false) →
      countOccur p (u ++ v) = countOccur p v
  | [], _ => rfl
  | c :: u', h => by
      have h0 : p.isPrefixOf ((c :: u') ++ v) = false := h [] (c :: u') rfl (by simp)
      simp only [List.cons_append] at h0
      simp [countOccur, h0]
      exact countOccur_append_no_left p v u'
        (fun a b hab hb => h (c :: a) b (by rw [hab]; rfl) hb)

/-- Whether a pattern heads an appended list is settled inside the left
part when the pattern is no longer than it. -/
theorem isPrefixOf_append_of_le : ∀ (p b v : Str), p.length ≤ b.length →
    p.isPrefixOf (b ++ v) = p.isPrefixOf b
  | [], _, _, _ => by simp [List.isPrefixOf]
  | x :: p', [], v, h => by simp at h
  | x :: p', y :: b', v, h => by
      rw [show ((y :: b') ++ v) = y :: (b' ++ v) from rfl]
      rw [show ((x :: p').isPrefixOf (y :: (b' ++ v))) =
            (x == y && p'.isPrefixOf (b' ++ v)) from rfl]
      rw [show ((x :: p').isPrefixOf (y :: b')) = (x == y && p'.isPrefixOf b') from rfl]
      rw [isPrefixOf_append_of_le p' b' v (by simpa using h)]

/-- No occurrence of LIMIT can start inside a LIMIT-free string when the
text LIMIT 100 (with its leading space) is appended: the space blocks
every straddling position. -/
theorem limit_no_boundary (u : Str) (h : containsSub (str "LIMIT") u = false) :
    ∀ a b, u = a ++ b → b ≠ [] →
      (str "LIMIT").isPrefixOf (b ++ str " LIMIT 100") = false := by
  intro a b hu hb
  cases hx : (str "LIMIT").isPrefixOf (b ++ str " LIMIT 100") with
  | false => rfl
  | true =>
    exfalso
    have e1 : str "LIMIT" = ['L', 'I', 'M', 'I', 'T'] := rfl
    have e2 : str " LIMIT 100" = [' ', 'L', 'I', 'M', 'I', 'T', ' ', '1', '0', '0'] := rfl
    rcases b with _ | ⟨c1, b⟩
    · exact hb rfl
    rcases b with _ | ⟨c2, b⟩
    · rw [e1, e2] at hx
      simp [List.isPrefixOf, show ('I' == ' ') = false from rfl] at hx
    rcases b with _ | ⟨c3, b⟩
    · rw [e1, e2] at hx
      simp [List.isPrefixOf, show ('M' == ' ') = false from rfl] at hx
    rcases b with _ | ⟨c4, b⟩
    · rw [e1, e2] at hx
      simp [List.isPrefixOf, show ('I' == ' ') = false from rfl] at hx
    rcases b with _ | ⟨c5, b⟩
    · rw [e1, e2] at hx
      simp [List.isPrefixOf, show ('T' == ' ') = false from rfl] at hx
    · rw [isPrefixOf_append_of_le _ _ _ (by rw [e1]; simp)] at hx
      have := containsSub_of_split (str "LIMIT") a (c1 :: c2 :: c3 :: c4 :: c5 :: b) hx
      rw [← hu] at this
      rw [h] at this
      exact Bool.false_ne_true this

/-- Upper-casing distributes over appending. -/
theorem upper_append (u v : Str) : upper (u ++ v) = upper u ++ upper v :=
  List.map_append _ _ _

/-- A statement already mentioning LIMIT (case-insensitively) is left
unchanged by the limit optimization. -/
theorem optimizeCH_fixed (s : Str)
    (h : containsSub (str "LIMIT") (upper s) = true) :
    optimizeClickhouseLimit s = s := by
  unfold optimizeClickhouseLimit
  cases hx : (str "SELECT").isPrefixOf (upper (pyStrip s)) with
  | false => simp [hx]
  | true => simp [hx, h]

/-- Claim C9: optimizing a columnar SELECT statement with no LIMIT clause
(the statement, stripped and upper-cased, starts with SELECT, and its
upper-cased text nowhere contains LIMIT — the test the source itself
uses for clause presence) yields a statement containing exactly one
occurrence of LIMIT, and optimizing again returns it unchanged. -/
theorem optimizer_limit_once_idem (q : Str)
    (hsel : (str "SELECT").isPrefixOf (upper (pyStrip q)) = true)
    (hnl : containsSub (str "LIMIT") (upper q) = false) :
    countOccur (str "LIMIT") (upper (optimizeClickhouseLimit q)) = 1 ∧
    optimizeClickhouseLimit (optimizeClickhouseLimit q) = optimizeClickhouseLimit q := by
  have hopt : optimizeClickhouseLimit q = q ++ str " LIMIT 100" := by
    unfold optimizeClickhouseLimit
    simp [hsel, hnl]
  have hcontain : containsSub (str "LIMIT") (upper (q ++ str " LIMIT 100")) = true := by
    rw [upper_append]
    rw [show upper (str " LIMIT 100") = str " LIMIT 100" from rfl]
    exact containsSub_append_right _ _ (by decide) (upper q)
  constructor
  · rw [hopt, upper_append, show upper (str " LIMIT 100") = str " LIMIT 100" from rfl]
    rw [countOccur_append_no_left (str "LIMIT") (str " LIMIT 100") (upper q)
          (limit_no_boundary (upper q) hnl)]
    decide
  · rw [hopt]
    exact optimizeCH_fixed _ hcontain

/-- Witness for C9 at the concrete statement SELECT x FROM t. -/
theorem optimizer_limit_witness :
    ((str "SELECT").isPrefixOf (upper (pyStrip (str "SELECT x FROM t"))) = true) ∧
    countOccur (str "LIMIT") (upper (optimizeClickhouseLimit (str "SELECT x FROM t"))) = 1 ∧
    optimizeClickhouseLimit (optimizeClickhouseLimit (str "SELECT x FROM t")) =
      optimizeClickhouseLimit (str "SELECT x FROM t") :=
  ⟨by decide,
   (optimizer_limit_once_idem (str "SELECT x FROM t") (by decide) (by decide)).1,
   (optimizer_limit_once_idem (str "SELECT x FROM t") (by decide) (by decide)).2⟩

/-- Claim C1: with one usable input (success and non-empty data), the limit
and group operations do not follow the contract of the other memory
operations — the dispatch names class methods that do not exist, so the
AttributeError is caught and aggregate returns a failed result. -/
theorem aggregate_limit_group_attr_missing :
    (aggregate opsTrivial [goodInput] (str "limit") {}).success = false ∧
    (aggregate opsTrivial [goodInput] (str "limit") {}).error =
      some (str "Error aggregating results: type object " ++ sq ++
        str "ResultAggregator" ++ sq ++ str " has no attribute " ++ sq ++
        str "_limit_results" ++ sq) ∧
    (aggregate opsTrivial [goodInput] (str "group") {}).success = false ∧
    goodInput.success = true ∧ goodInput.data ≠ [] := by
  decide

/-- Claim C2: the ClickHouse string SELECT 1; SELECT 2; holds two non-empty
semicolon-separated statements, yet validation accepts it — the
multi-statement check is skipped whenever the stripped query ends with a
semicolon, so the claimed rejection fails on trailing-semicolon
payloads. -/
theorem ch_multi_statement_trailing_accepted :
    nonEmptyStatements (str "SELECT 1; SELECT 2;") = 2 ∧
    (chValidate secOff { query := str "SELECT 1; SELECT 2;" }).1 = true ∧
    (validateClickhouseQuery secOff (str "SELECT 1; SELECT 2;")).1 = true ∧
    (chValidate secOff { query := str "SELECT 1; SELECT 2" }).1 = false := by
  decide

/-- Claim C7: the document-store name system.users is canonicalized to
systemusers with no user_ prefix — the dot is stripped before the
system./admin. test runs, so that rewrite never fires — while the
columnar-store rewrite does fire on system_tables. -/
theorem sanitize_mongo_system_prefix_dead :
    sanitizeMongodbCollectionName (str "system.users") = str "systemusers" ∧
    sanitizeMongodbCollectionName (str "admin.users") = str "adminusers" ∧
    sanitizeClickhouseTableName (str "system_tables") = str "user_system_tables" ∧
    sanitizeClickhouseTableName (str "sy.stem_tables") = str "user_system_tables" := by
  decide

/-- Counterexample to C3: a two-step plan whose final memory step names an
undefined input fails with the missing-input error, but the trace shows
the ClickHouse backend of step 0 was dispatched to first — the failure
does not happen before backend contact. -/
theorem fed_missing_input_after_backend :
    fedExecute envAllOk [c3q, c3m] =
      (mkErr (str "Step 1: Input " ++ sq ++ str "missing" ++ sq ++ str " not found"),
       [FEvent.started 0, FEvent.backend 0 (str "clickhouse"), FEvent.started 1]) ∧
    ((fedExecute envAllOk [c3q, c3m]).2.any (fun e =>
        match e with
        | FEvent.backend _ _ => true
        | _ => false)) = true := by
  decide

/-- Counterexample to C5: the dispatch stage of the document-store executor
(the code run immediately before the client call, after validation) maps
an insert_one query to a client write call; it consults no write-enable
flag at all, so no second rejection check exists there. -/
theorem mongo_dispatch_issues_write_call :
    mongoExecuteQueryCall insertQDemo =
      .ok { collection := str "users", operation := str "insert_one",
            arg := .doc [(str "name", 1)] } := rfl

/-- Counterexample to C6: a plan satisfying the dependency invariant whose
memory filter step consumes the output of the query step before it; the
reorder moves the filter first regardless, breaking the invariant instead
of leaving the step in place. -/
theorem step_order_breaks_dependency :
    depInvariantB [o0, o1, o2] = true ∧
    optimizeStepOrder [o0, o1, o2] = [o1, o0, o2] ∧
    depInvariantB [o1, o0, o2] = false := by
  decide

/-- When writes are disabled, any ClickHouse body whose upper-cased query
contains one of the six write keywords as a plain substring is rejected
by QueryValidator (helper shared by the write-gating results). -/
theorem chValidate_write_sub_false (sec : Security) (body : CHBody)
    (hw : sec.enableWriteOperations = false)
    (hc : chWriteOpsSub.any (fun op => containsSub op (upper body.query)) = true) :
    (chValidate sec body).1 = false := by
  unfold chValidate
  cases hv : (validateClickhouseQuery sec body.query).1 with
  | false => simp [hv]
  | true =>
    cases hfind : chWriteOpsSub.find? (fun op => containsSub op (upper body.query)) with
    | some op => simp [hv, hw, hfind]
    | none =>
      exfalso
      rw [List.find?_eq_none] at hfind
      rw [List.any_eq_true] at hc
      obtain ⟨op, hmem, hop⟩ := hc
      exact hfind op hmem hop

/-- Claim C10: with the write flag off, a ClickHouse query whose upper-cased
text contains INSERT, UPDATE, DELETE, CREATE, ALTER or DROP as a plain
substring is rejected — in particular SELECT created_at FROM logs is
rejected, although created_at is not a word-bounded CREATE and the
statement performs no write. -/
theorem ch_write_substring_rejected :
    (∀ (sec : Security) (body : CHBody), sec.enableWriteOperations = false →
      chWriteOpsSub.any (fun op => containsSub op (upper body.query)) = true →
      (chValidate sec body).1 = false) ∧
    (chValidate secOff bodyCA).1 = false ∧
    wordSearch (str "CREATE") (upper bodyCA.query) = false :=
  ⟨fun sec body hw hc => chValidate_write_sub_false sec body hw hc,
   chValidate_write_sub_false secOff bodyCA rfl (by decide),
   by decide⟩

/-- Witness for C10 at the created_at statement. -/
theorem ch_write_substring_witness :
    secOff.enableWriteOperations = false ∧
    (chWriteOpsSub.any (fun op => containsSub op (upper bodyCA.query))) = true ∧
    (chValidate secOff bodyCA).1 = false :=
  ⟨rfl, by decide, ch_write_substring_rejected.1 secOff bodyCA rfl (by decide)⟩

/-- Writes are gated by QueryValidator alone: a ClickHouse write query is
rejected by validation before any client call when the flag is off, and
the post-validation dispatch stage of the document-store executor issues
the write client call unconditionally — no second check exists there. -/
theorem executor_write_gate_validator_only :
    (∀ (sec : Security) (conn : Bool) (client : CHBody → QRes) (body : CHBody),
      sec.enableWriteOperations = false →
      chWriteOpsSub.any (fun op => containsSub op (upper body.query)) = true →
      (chExecuteCalls sec conn client body).1.success = false ∧
      (chExecuteCalls sec conn client body).2 = []) ∧
    (∀ (c : Str) (d : Row), mongoExecuteQueryCall (insertQOf c d) = .ok (insertCallOf c d)) := by
  constructor
  · intro sec conn client body hw hc
    have hval := chValidate_write_sub_false sec body hw hc
    refine ⟨?_, ?_⟩ <;> simp [chExecuteCalls, hval, mkErr]
  · intro c d
    rfl

/-- Witness for the write-gate theorem at a concrete insert statement and a
concrete insert_one dispatch. -/
theorem executor_write_gate_witness :
    (chExecuteCalls secOff true (fun _ => chOkRes) bodyINS).1.success = false ∧
    (chExecuteCalls secOff true (fun _ => chOkRes) bodyINS).2 = [] ∧
    mongoExecuteQueryCall (insertQOf (str "events") [(str "k", 7)]) =
      .ok (insertCallOf (str "events") [(str "k", 7)]) :=
  ⟨(executor_write_gate_validator_only.1 secOff true (fun _ => chOkRes)
      bodyINS rfl (by decide)).1,
   (executor_write_gate_validator_only.1 secOff true (fun _ => chOkRes)
      bodyINS rfl (by decide)).2,
   executor_write_gate_validator_only.2 (str "events") [(str "k", 7)]⟩

/-- The reorder fold collects, onto its accumulators, the non-final memory
filter steps, the remaining non-final steps, and the last final step, all
in encounter order. -/
theorem stepOrderFold_eq (steps : List Step) :
    ∀ (fs os : List Step) (fin : Option Step),
      stepOrderFold steps (fs, os, fin) =
        (fs ++ steps.filter (fun s => !isFinalStep s && isMemFilter s),
         os ++ steps.filter (fun s => !isFinalStep s && !isMemFilter s),
         lastFinalFrom fin steps) := by
  induction steps with
  | nil => intro fs os fin; simp [stepOrderFold, lastFinalFrom]
  | cons s rest ih =>
    intro fs os fin
    by_cases hf : isFinalStep s
    · have h1 : stepOrderFold (s :: rest) (fs, os, fin) = stepOrderFold rest (fs, os, some s) := by
        simp [stepOrderFold, hf]
      rw [h1, ih]
      simp [List.filter_cons, hf, lastFinalFrom, List.foldl_cons]
    · by_cases hm : isMemFilter s
      · have h1 : stepOrderFold (s :: rest) (fs, os, fin) =
            stepOrderFold rest (fs ++ [s], os, fin) := by
          simp [stepOrderFold, hf, hm]
        rw [h1, ih]
        simp [List.filter_cons, hf, hm, lastFinalFrom, List.foldl_cons]
      · have h1 : stepOrderFold (s :: rest) (fs, os, fin) =
            stepOrderFold rest (fs, os ++ [s], fin) := by
          simp [stepOrderFold, hf, hm]
        rw [h1, ih]
        simp [List.filter_cons, hf, hm, lastFinalFrom, List.foldl_cons]

/-- The step reorder moves every non-final memory filter step to the front
in their original relative order, keeps the remaining non-final steps
after them in their original relative order, and puts the last final step
at the end; it consults no dependency information, so the move is
unconditional. -/
theorem step_order_shape (steps : List Step) :
    optimizeStepOrder steps =
      steps.filter (fun s => !isFinalStep s && isMemFilter s) ++
      steps.filter (fun s => !isFinalStep s && !isMemFilter s) ++
      (lastFinalFrom none steps).toList := by
  unfold optimizeStepOrder
  rw [stepOrderFold_eq]
  simp

/-- Counterexample to C8: refreshing against a backend that lists only a
fresh collection keeps the stale pre-refresh entry in the map — the
refresh merges per entry rather than replacing the map wholesale. -/
theorem refresh_keeps_stale_entry :
    refreshMongodbSchemas sbFresh mapStale =
      ([(str "old", [(str "f", str "String")]),
        (str "fresh", [(str "g", str "Int64")])], true) ∧
    fetchedEntries sbFresh = [(str "fresh", [(str "g", str "Int64")])] ∧
    (refreshMongodbSchemas sbFresh mapStale).1 ≠ fetchedEntries sbFresh :=
  ⟨by decide, by decide, by decide⟩

/-- The refresh loop upserts exactly the fetched entries, in listing order,
into whatever map it starts from. -/
theorem schemaStep_fold (b : SchemaBackend) :
    ∀ (objs : List Str) (m : SchemaMap),
      objs.foldl (schemaStep b) m =
        ((objs.filter (fun c => !(str "system.").isPrefixOf c)).filterMap
          (fetchedEntry b)).foldl (fun acc e => upsertA acc e.1 e.2) m := by
  intro objs
  induction objs with
  | nil => intro m; rfl
  | cons c rest ih =>
    intro m
    rw [List.foldl_cons, List.filter_cons]
    cases hs : (str "system.").isPrefixOf c with
    | true =>
      have h1 : schemaStep b m c = m := by simp [schemaStep, hs]
      rw [h1]
      simp only [Bool.not_true, reduceIte]
      exact ih m
    | false =>
      simp only [Bool.not_false, reduceIte, List.filterMap_cons]
      cases he : (b.getSchema c).isEmpty with
      | true =>
        have h1 : schemaStep b m c = m := by simp [schemaStep, hs, he]
        have h2 : fetchedEntry b c = none := by simp [fetchedEntry, he]
        rw [h1, h2]
        exact ih m
      | false =>
        have h1 : schemaStep b m c = upsertA m c (b.getSchema c) := by
          simp [schemaStep, hs, he]
        have h2 : fetchedEntry b c = some (c, b.getSchema c) := by
          simp [fetchedEntry, he]
        rw [h1, h2]
        simp only [List.foldl_cons]
        exact ih (upsertA m c (b.getSchema c))

/-- A failed connect leaves each backend map untouched; a successful
refresh upserts exactly the freshly fetched entries into the existing map
(per-entry merge, not wholesale replacement); and each backend map of
refresh_schemas depends only on its own backend and prior map, so one
backend failing never touches the other map. -/
theorem schema_refresh_merge :
    (∀ (b : SchemaBackend) (m : SchemaMap), b.connect = false →
       refreshMongodbSchemas b m = (m, false)) ∧
    (∀ (b : SchemaBackend) (m : SchemaMap), b.connect = false →
       refreshClickhouseSchemas b m = (m, false)) ∧
    (∀ (b : SchemaBackend) (m : SchemaMap), b.connect = true →
       (refreshMongodbSchemas b m).1 =
         (fetchedEntries b).foldl (fun acc e => upsertA acc e.1 e.2) m) ∧
    (∀ (b : SchemaBackend) (m : SchemaMap), b.connect = true →
       (refreshClickhouseSchemas b m).1 =
         (fetchedEntries b).foldl (fun acc e => upsertA acc e.1 e.2) m) ∧
    (∀ (bm bc : SchemaBackend) (m c : SchemaMap),
       (refreshSchemas bm bc m c).1 = (refreshMongodbSchemas bm m).1 ∧
       (refreshSchemas bm bc m c).2.1 = (refreshClickhouseSchemas bc c).1) := by
  refine ⟨?_, ?_, ?_, ?_, ?_⟩
  · intro b m h; simp [refreshMongodbSchemas, h]
  · intro b m h; simp [refreshClickhouseSchemas, h]
  · intro b m h
    simp only [refreshMongodbSchemas, h, if_true]
    exact schemaStep_fold b b.objects m
  · intro b m h
    simp only [refreshClickhouseSchemas, h, if_true]
    exact schemaStep_fold b b.objects m
  · intro bm bc m c; exact ⟨rfl, rfl⟩

/-- Witness for the refresh-merge theorem at a reachable and an unreachable
backend. -/
theorem schema_refresh_merge_witness :
    refreshMongodbSchemas sbDown mapStale = (mapStale, false) ∧
    (refreshMongodbSchemas sbFresh mapStale).1 =
      (fetchedEntries sbFresh).foldl (fun acc e => upsertA acc e.1 e.2) mapStale ∧
    (refreshSchemas sbFresh sbDown mapStale mapStale).2.1 =
      (refreshClickhouseSchemas sbDown mapStale).1 :=
  ⟨schema_refresh_merge.1 sbDown mapStale rfl,
   schema_refresh_merge.2.2.1 sbFresh mapStale rfl,
   (schema_refresh_merge.2.2.2.2 sbFresh sbDown mapStale mapStale).2⟩

/-- Every event a loop iteration contributes carries that iteration's
position. -/
theorem fedStep_events_pos (env : FedEnv) (outputs : List (Str × QRes)) (pos : Nat)
    (s : Step) : ∀ e ∈ (fedStep env outputs pos s).1, e.pos = pos := by
  intro e he
  have hd : (fedStep env outputs pos s).1 =
      FEvent.started pos ::
        (if (fedStepCore env outputs s).1 then [FEvent.backend pos s.dataSource] else []) := rfl
  rw [hd] at he
  rcases List.mem_cons.mp he with h | h
  · rw [h]; rfl
  · cases hb : (fedStepCore env outputs s).1
    · rw [hb] at h; simp at h
    · rw [hb] at h; simp at h; rw [h]; rfl

/-- Events of a processed prefix stay within the positions of that
prefix. -/
theorem runPrefix_events (env : FedEnv) :
    ∀ (pre : List Step) (outputs : List (Str × QRes)) (pos : Nat)
      (o : Option (List (Str × QRes))) (evs : List FEvent),
      runPrefix env outputs pos pre = (o, evs) →
      ∀ e ∈ evs, pos ≤ e.pos ∧ e.pos < pos + pre.length := by
  intro pre
  induction pre with
  | nil =>
    intro outputs pos o evs h e he
    simp only [runPrefix] at h
    injection h with h1 h2
    rw [← h2] at he
    simp at he
  | cons s rest ih =>
    intro outputs pos o evs h e he
    rcases hfs : fedStep env outputs pos s with ⟨evs1, out⟩
    cases out with
    | error r =>
      simp only [runPrefix, hfs] at h
      injection h with h1 h2
      rw [← h2] at he
      have := fedStep_events_pos env outputs pos s e (by rw [hfs]; exact he)
      simp [this, List.length_cons]
    | ok p =>
      rcases p with ⟨name, r⟩
      simp only [runPrefix, hfs] at h
      injection h with h1 h2
      rw [← h2] at he
      rcases List.mem_append.mp he with hl | hr
      · have := fedStep_events_pos env outputs pos s e (by rw [hfs]; exact hl)
        simp [this, List.length_cons]
      · have := ih (upsertA outputs name r) (pos + 1)
          (runPrefix env (upsertA outputs name r) (pos + 1) rest).1
          (runPrefix env (upsertA outputs name r) (pos + 1) rest).2 rfl e hr
        simp only [List.length_cons]
        omega

/-- The loop over a decomposed step list: once a prefix runs through
without halting, the loop continues from its outputs at the shifted
position, and the traces concatenate. -/
theorem fedLoop_split (env : FedEnv) :
    ∀ (pre rest : List Step) (outputs : List (Str × QRes)) (pos : Nat)
      (outs : List (Str × QRes)) (evs : List FEvent),
      runPrefix env outputs pos pre = (some outs, evs) →
      fedLoop env outputs pos (pre ++ rest) =
        ((fedLoop env outs (pos + pre.length) rest).1,
         evs ++ (fedLoop env outs (pos + pre.length) rest).2) := by
  intro pre
  induction pre with
  | nil =>
    intro rest outputs pos outs evs h
    simp only [runPrefix] at h
    injection h with h1 h2
    injection h1 with h1
    subst h1
    subst h2
    simp
  | cons s pre' ih =>
    intro rest outputs pos outs evs h
    rcases hfs : fedStep env outputs pos s with ⟨evs1, out⟩
    cases out with
    | error r =>
      simp only [runPrefix, hfs] at h
      exact absurd (congrArg Prod.fst h) (by simp)
    | ok p =>
      rcases p with ⟨name, r⟩
      simp only [runPrefix, hfs] at h
      injection h with h1 h2
      rw [show (s :: pre') ++ rest = s :: (pre' ++ rest) from rfl]
      simp only [fedLoop, hfs]
      have hrec := ih rest (upsertA outputs name r) (pos + 1) outs
        (runPrefix env (upsertA outputs name r) (pos + 1) pre').2
        (by rw [← h1])
      rw [hrec]
      have hpos : pos + 1 + pre'.length = pos + (pre'.length + 1) := by omega
      simp only [List.length_cons, hpos, ← h2, List.append_assoc]

/-- A halt produced by the loop tail carries an error text starting with
Step and the step index field. -/
theorem afterResult_err_shape (s : Step) (R r : QRes)
    (h : afterResult s R = .error r) (hr : r.success = false) :
    ∃ t, r.error = some (str "Step " ++ natStr s.stepIndex ++ t) := by
  unfold afterResult at h
  split at h
  · injection h with h2
    rw [← h2]
    exact ⟨str " failed: " ++ R.error.getD (str "Unknown error"),
      by simp [mkErr, List.append_assoc]⟩
  · split at h
    · injection h with h2
      rw [← h2] at hr
      simp [formatQueryResult] at hr
      rename_i hsucc _
      simp [hr] at hsucc
    · exact Except.noConfusion h

/-- Every failing halt of a loop iteration names the step index field at
the front of its error text. -/
theorem fedStepCore_err_shape (env : FedEnv) (outputs : List (Str × QRes)) (s : Step)
    (b : Bool) (r : QRes)
    (h : fedStepCore env outputs s = (b, .error r)) (hr : r.success = false) :
    ∃ t, r.error = some (str "Step " ++ natStr s.stepIndex ++ t) := by
  unfold fedStepCore at h
  split at h
  · split at h
    · injection h with h1 h2
      injection h2 with h2
      exact ⟨str ": MongoDB query not specified", by rw [← h2]; rfl⟩
    · injection h with h1 h2
      exact afterResult_err_shape s _ r h2 hr
  · split at h
    · split at h
      · injection h with h1 h2
        injection h2 with h2
        exact ⟨str ": ClickHouse query not specified", by rw [← h2]; rfl⟩
      · injection h with h1 h2
        exact afterResult_err_shape s _ r h2 hr
    · split at h
      · split at h
        · injection h with h1 h2
          injection h2 with h2
          exact ⟨str ": Memory operation not specified", by rw [← h2]; rfl⟩
        · split at h
          · injection h with h1 h2
            injection h2 with h2
            exact ⟨str ": Memory inputs not specified", by rw [← h2]; rfl⟩
          · split at h
            · injection h with h1 h2
              injection h2 with h2
              rename_i name _
              exact ⟨str ": Input " ++ sq ++ name ++ sq ++ str " not found",
                by rw [← h2]; simp [mkErr, List.append_assoc]⟩
            · injection h with h1 h2
              exact afterResult_err_shape s _ r h2 hr
      · injection h with h1 h2
        injection h2 with h2
        exact ⟨str ": Unsupported data source: " ++ s.dataSource,
          by rw [← h2]; simp [mkErr, List.append_assoc]⟩

/-- General halt shape of the federated executor (shared helper): when a
validated plan runs its prefix through and the next step halts with a
failing result, the executor returns that result, its error names the
step index, and the trace covers no later position. -/
theorem fedHalt_shape (env : FedEnv) (steps ss pre post : List Step)
    (s : Step) (outs : List (Str × QRes)) (evs : List FEvent) (b : Bool) (r : QRes)
    (hval : validateFederated env steps = (true, [], ss))
    (hss : ss = pre ++ s :: post)
    (hpre : runPrefix env [] 0 pre = (some outs, evs))
    (hstep : fedStepCore env outs s = (b, .error r))
    (hfail : r.success = false) :
    fedExecute env steps =
      (r, evs ++ (FEvent.started pre.length ::
        (if b then [FEvent.backend pre.length s.dataSource] else []))) ∧
    ((str "Step " ++ natStr s.stepIndex).isPrefixOf
        ((fedExecute env steps).1.error.getD [])) = true ∧
    ((fedExecute env steps).2.all (fun e => decide (e.pos ≤ pre.length))) = true := by
  have hne : steps.isEmpty = false := by
    cases steps with
    | nil => simp [validateFederated] at hval
    | cons a l => rfl
  have hexec : fedExecute env steps = fedLoop env [] 0 ss := by
    simp [fedExecute, hne, hval]
  have hstep' : fedStep env outs pre.length s =
      (FEvent.started pre.length ::
        (if b then [FEvent.backend pre.length s.dataSource] else []), .error r) := by
    simp [fedStep, hstep]
  have hloop : fedLoop env outs pre.length (s :: post) =
      (r, FEvent.started pre.length ::
        (if b then [FEvent.backend pre.length s.dataSource] else [])) := by
    simp only [fedLoop, hstep']
  have hsplit := fedLoop_split env pre (s :: post) [] 0 outs evs hpre
  rw [Nat.zero_add] at hsplit
  have hmain : fedExecute env steps =
      (r, evs ++ (FEvent.started pre.length ::
        (if b then [FEvent.backend pre.length s.dataSource] else []))) := by
    rw [hexec, hss, hsplit, hloop]
  refine ⟨hmain, ?_, ?_⟩
  · rw [hmain]
    obtain ⟨t, ht⟩ := fedStepCore_err_shape env outs s b r hstep hfail
    simp only [ht, Option.getD_some]
    exact isPrefixOf_append_self _ _
  · rw [hmain]
    simp only [List.all_append, Bool.and_eq_true, List.all_eq_true]
    constructor
    · intro e he
      have := runPrefix_events env pre [] 0 (some outs) evs hpre e he
      simp only [decide_eq_true_eq]
      omega
    · intro e he
      rcases List.mem_cons.mp he with h1 | h1
      · rw [h1]; simp [FEvent.pos]
      · cases b with
        | false => simp at h1
        | true =>
          simp at h1
          rw [h1]
          simp [FEvent.pos]

/-- Claim C4: in a validated federated plan, when the steps before position
p all continue and the step at position p fails, the pipeline returns
that failure, the error string names the failing step's index, and the
trace contains no event of any later position — no later step runs. -/
theorem fed_abort_on_step_failure (env : FedEnv) (steps ss pre post : List Step)
    (s : Step) (outs : List (Str × QRes)) (evs : List FEvent) (b : Bool) (r : QRes)
    (hval : validateFederated env steps = (true, [], ss))
    (hss : ss = pre ++ s :: post)
    (hpre : runPrefix env [] 0 pre = (some outs, evs))
    (hstep : fedStepCore env outs s = (b, .error r))
    (hfail : r.success = false) :
    fedExecute env steps =
      (r, evs ++ (FEvent.started pre.length ::
        (if b then [FEvent.backend pre.length s.dataSource] else []))) ∧
    ((str "Step " ++ natStr s.stepIndex).isPrefixOf
        ((fedExecute env steps).1.error.getD [])) = true ∧
    ((fedExecute env steps).2.all (fun e => decide (e.pos ≤ pre.length))) = true :=
  fedHalt_shape env steps ss pre post s outs evs b r hval hss hpre hstep hfail

/-- Witness for C4: in the three-step plan whose middle step fails at the
backend, the pipeline reports Step 2 failed, and the final step at
position 2 is never started. -/
theorem fed_abort_witness :
    fedExecute envMidFail [w1, w2, w3] =
      (mkErr (str "Step 2 failed: boom"),
       [FEvent.started 0, FEvent.backend 0 (str "clickhouse"),
        FEvent.started 1, FEvent.backend 1 (str "clickhouse")]) ∧
    ((str "Step " ++ natStr 2).isPrefixOf
        ((fedExecute envMidFail [w1, w2, w3]).1.error.getD [])) = true ∧
    ((fedExecute envMidFail [w1, w2, w3]).2.all (fun e => decide (e.pos ≤ 1))) = true :=
  fed_abort_on_step_failure envMidFail [w1, w2, w3] [w1, w2, w3] [w1] [w3] w2
    [(str "r1", chOkRes)] [FEvent.started 0, FEvent.backend 0 (str "clickhouse")]
    true (mkErr (str "Step 2 failed: boom"))
    (by decide) rfl (by decide) rfl rfl

/-- Amended C3: when a validated plan reaches a memory step one of whose
inputs was not produced by the steps before it, the pipeline fails right
there with an error naming the step index and the missing input, and no
step at or after that position dispatches to any backend — but backend
steps earlier in the plan have already executed. -/
theorem fed_missing_input_at_step (env : FedEnv) (steps ss pre post : List Step)
    (m : Step) (outs : List (Str × QRes)) (evs : List FEvent)
    (op : Str) (ins : List Str) (name : Str)
    (hval : validateFederated env steps = (true, [], ss))
    (hss : ss = pre ++ m :: post)
    (hpre : runPrefix env [] 0 pre = (some outs, evs))
    (hds : m.dataSource = str "memory")
    (hop : m.operation = some op)
    (hins : m.inputs = some ins)
    (hmiss : resolveInputs outs ins = .error name) :
    fedExecute env steps =
      (mkErr (str "Step " ++ natStr m.stepIndex ++ str ": Input " ++ sq ++ name ++
         sq ++ str " not found"),
       evs ++ [FEvent.started pre.length]) ∧
    ((fedExecute env steps).2.all (fun e => decide (e.pos ≤ pre.length))) = true := by
  have hcore : fedStepCore env outs m =
      (false, .error (mkErr (str "Step " ++ natStr m.stepIndex ++ str ": Input " ++
        sq ++ name ++ sq ++ str " not found"))) := by
    simp [fedStepCore, hds, hop, hins, hmiss,
      show (str "memory" == str "mongodb") = false from rfl,
      show (str "memory" == str "clickhouse") = false from rfl,
      show (str "memory" == str "memory") = true from rfl]
  have hmain := fedHalt_shape env steps ss pre post m outs evs false
    (mkErr (str "Step " ++ natStr m.stepIndex ++ str ": Input " ++ sq ++ name ++
      sq ++ str " not found"))
    hval hss hpre hcore rfl
  refine ⟨?_, hmain.2.2⟩
  rw [hmain.1]
  simp

/-- Witness for the amended C3 at the three-step plan whose middle memory
step names the unknown input nope: the ClickHouse step at position 0 has
already been dispatched when the failure is reported. -/
theorem fed_missing_input_witness :
    fedExecute envAllOk [c3q, c3bad, c3fin] =
      (mkErr (str "Step 1: Input " ++ sq ++ str "nope" ++ sq ++ str " not found"),
       [FEvent.started 0, FEvent.backend 0 (str "clickhouse"), FEvent.started 1]) ∧
    ((fedExecute envAllOk [c3q, c3bad, c3fin]).2.all
        (fun e => decide (e.pos ≤ 1))) = true :=
  fed_missing_input_at_step envAllOk [c3q, c3bad, c3fin] [c3q, c3bad, c3fin]
    [c3q] [c3fin] c3bad [(str "a", chOkRes)]
    [FEvent.started 0, FEvent.backend 0 (str "clickhouse")]
    (str "union") [str "nope"] (str "nope")
    (by decide) rfl (by decide) rfl rfl rfl rfl

end NLDB
